import Mathlib

/-!
Shallow embedding of the FinancePy bond-pricing runner (`runner.py`) and of the
bond valuation engine it delegates to.  The request-dispatch layer (`run`) is
translated directly from `runner.py`; the valuation engine (day counts,
schedules, accrued interest, price/yield conversion, durations, convexity) is
not part of the repository sources, so it is modelled from the specification.
Dates are integer triples, money amounts and day-count fractions are rationals,
discounted prices are real numbers (real powers model fractional-period
discounting).
-/

namespace FinancePy

/-- A proleptic-Gregorian calendar date, `(year, month, day)`. -/
structure CalendarDate where
  year : Int
  month : Int
  day : Int
deriving DecidableEq

/-- Gregorian leap-year rule. -/
def isLeapYear (y : Int) : Prop :=
  (y % 4 = 0 ∧ ¬ y % 100 = 0) ∨ y % 400 = 0

instance (y : Int) : Decidable (isLeapYear y) :=
  inferInstanceAs (Decidable ((y % 4 = 0 ∧ ¬ y % 100 = 0) ∨ y % 400 = 0))

/-- Number of days of month `m` in year `y`. -/
def daysInMonth (y m : Int) : Int :=
  if m = 2 then (if isLeapYear y then 29 else 28)
  else if m = 4 ∨ m = 6 ∨ m = 9 ∨ m = 11 then 30
  else 31

/-- The `CalendarDate` invariant: month in `1..12`, day valid for the month
(including leap years). -/
def validDate (d : CalendarDate) : Prop :=
  1 ≤ d.month ∧ d.month ≤ 12 ∧ 1 ≤ d.day ∧ d.day ≤ daysInMonth d.year d.month

instance (d : CalendarDate) : Decidable (validDate d) :=
  inferInstanceAs (Decidable (_ ∧ _ ∧ _ ∧ _))

/-- Days in year `y` strictly before the first day of month `m`
(closed form: `0` for January, `31` for February, and the exact
cumulative count `(153 (m-3) + 2) / 5 + 59 (+ 1 in leap years)` for
March through December). -/
def daysBeforeMonth (y m : Int) : Int :=
  if m = 1 then 0
  else if m = 2 then 31
  else (153 * (m - 3) + 2) / 5 + 59 + (if isLeapYear y then 1 else 0)

/-- Number of Gregorian leap years in `1..t` (for `t ≥ 0`), extended to
negative `t` by floor division. -/
def leapsUpTo (t : Int) : Int :=
  t / 4 - t / 100 + t / 400

/-- Day serial number of a date (rata die: 0001-01-01 has number 1).  Pure
function of the triple; chronological order of valid dates equals order of
serial numbers. -/
def rataDie (d : CalendarDate) : Int :=
  365 * (d.year - 1) + leapsUpTo (d.year - 1) + daysBeforeMonth d.year d.month + d.day

/-- Serial number of January 1 of year `y`. -/
def jan1Num (y : Int) : Int :=
  365 * (y - 1) + leapsUpTo (y - 1) + 1

/-- Number of days in year `y` (365 or 366). -/
def daysInYear (y : Int) : Int :=
  if isLeapYear y then 366 else 365

/-- Chronological (lexicographic) order on date triples. -/
def dateLE (a b : CalendarDate) : Prop :=
  a.year < b.year ∨
    (a.year = b.year ∧ (a.month < b.month ∨ (a.month = b.month ∧ a.day ≤ b.day)))

/-- Strict chronological (lexicographic) order on date triples. -/
def dateLT (a b : CalendarDate) : Prop :=
  a.year < b.year ∨
    (a.year = b.year ∧ (a.month < b.month ∨ (a.month = b.month ∧ a.day < b.day)))

instance (a b : CalendarDate) : Decidable (dateLE a b) :=
  inferInstanceAs (Decidable (_ ∨ _))

instance (a b : CalendarDate) : Decidable (dateLT a b) :=
  inferInstanceAs (Decidable (_ ∨ _))

/-- Error kinds of the engine and of the request dispatcher.  `InvalidDate` is
the failure of constructing a `CalendarDate` from an invalid triple. -/
inductive Err where
  | InvalidDate
  | InvalidDateOrder
  | InvalidBondError
  | InvalidScheduleError
  | SettlementOutOfRange
  | PriceOutOfBounds
  | YieldNotConverged
  | AmbiguousInput
  | UnsupportedEnumValue
deriving DecidableEq

/-- The fixed set of day-count conventions. -/
inductive DayCountConvention where
  | ACT_ACT_ISDA
  | THIRTY_E_360
  | ACT_360
  | ACT_365F
deriving DecidableEq

/-- Clamp a day serial number to the span of year `y`, namely
`[jan1Num y, jan1Num (y+1)]`. -/
def clampToYear (y t : Int) : Int :=
  max (jan1Num y) (min (jan1Num (y + 1)) t)

/-- Modelled from the spec: the `ACT_ACT_ISDA` year fraction splits the
interval `[start, end)` of day numbers at calendar-year boundaries and weights
each year's day count by that year's actual length (365 or 366). -/
def yfISDA (a b : CalendarDate) : ℚ :=
  Finset.sum (Finset.Icc a.year b.year) (fun y =>
    ((clampToYear y (rataDie b) - clampToYear y (rataDie a) : Int) : ℚ) /
      ((daysInYear y : Int) : ℚ))

/-- Modelled from the spec: the year fraction of each day-count convention,
as a pure function of the ordered pair of dates (no precondition check). -/
def yfRaw (conv : DayCountConvention) (a b : CalendarDate) : ℚ :=
  match conv with
  | .ACT_360 => ((rataDie b - rataDie a : Int) : ℚ) / 360
  | .ACT_365F => ((rataDie b - rataDie a : Int) : ℚ) / 365
  | .THIRTY_E_360 =>
      ((360 * (b.year - a.year) + 30 * (b.month - a.month) +
        (min b.day 30 - min a.day 30) : Int) : ℚ) / 360
  | .ACT_ACT_ISDA => yfISDA a b

/-- Modelled from the spec: `year_fraction(convention, start, end)` checks the
precondition `start ≤ end` (failing with `InvalidDateOrder`) and otherwise
returns the convention's year fraction. -/
def year_fraction (conv : DayCountConvention) (a b : CalendarDate) : Except Err ℚ :=
  if dateLE a b then .ok (yfRaw conv a b) else .error .InvalidDateOrder

/-- Coupon frequency. -/
inductive Frequency where
  | ANNUAL
  | SEMI_ANNUAL
  | QUARTERLY
  | MONTHLY
deriving DecidableEq

/-- Coupon periods per year: 1, 2, 4 or 12. -/
def periods_per_year (f : Frequency) : ℕ :=
  match f with
  | .ANNUAL => 1
  | .SEMI_ANNUAL => 2
  | .QUARTERLY => 4
  | .MONTHLY => 12

/-- Months between consecutive coupons, `12 / periods_per_year`. -/
def couponStepMonths (f : Frequency) : Int :=
  12 / (periods_per_year f : Int)

/-- Index of a date's month on the infinite month axis. -/
def monthIndex (d : CalendarDate) : Int :=
  12 * d.year + (d.month - 1)

/-- Whether a date is the last day of its month. -/
def isMonthEnd (d : CalendarDate) : Prop :=
  d.day = daysInMonth d.year d.month

instance (d : CalendarDate) : Decidable (isMonthEnd d) :=
  inferInstanceAs (Decidable (_ = _))

/-- The date in month-index `t` carrying over day-of-month `day`, rolled to
the month end when `sticky` is set (month-end anchoring) and clipped to the
month's length otherwise. -/
def dateOfMonthIndex (t day : Int) (sticky : Bool) : CalendarDate :=
  ⟨t / 12, t % 12 + 1,
    if sticky then daysInMonth (t / 12) (t % 12 + 1)
    else min day (daysInMonth (t / 12) (t % 12 + 1))⟩

/-- Modelled from the spec: step backward from maturity in coupon-sized month
decrements, collecting dates strictly after the issue date.  Fuel-bounded
recursion; the produced list is in reverse chronological order. -/
def genCoupons (issue : CalendarDate) (step day : Int) (sticky : Bool) :
    Nat → Int → List CalendarDate
  | 0, _ => []
  | fuel + 1, t =>
      if dateLT issue (dateOfMonthIndex t day sticky) then
        dateOfMonthIndex t day sticky :: genCoupons issue step day sticky fuel (t - step)
      else []

/-- Modelled from the spec: the coupon schedule, generated backward from
maturity (with month-end anchoring) and returned in ascending order with
maturity as the last date. -/
def generateSchedule (issue maturity : CalendarDate) (f : Frequency) : List CalendarDate :=
  (genCoupons issue (couponStepMonths f) maturity.day (decide (isMonthEnd maturity))
    ((monthIndex maturity - monthIndex issue).toNat + 1) (monthIndex maturity)).reverse

/-- An immutable fixed-coupon bond together with its generated coupon
schedule. -/
structure Bond where
  issue_date : CalendarDate
  maturity_date : CalendarDate
  coupon_rate : ℚ
  frequency : Frequency
  day_count_convention : DayCountConvention
  coupon_schedule : List CalendarDate

/-- Modelled from the spec: bond construction validates `issue < maturity` and
`coupon_rate ≥ 0` (failing with `InvalidBondError`) and generates the coupon
schedule once. -/
def mkBond (issue maturity : CalendarDate) (cpn : ℚ) (f : Frequency)
    (dc : DayCountConvention) : Except Err Bond :=
  if dateLT issue maturity ∧ 0 ≤ cpn then
    .ok ⟨issue, maturity, cpn, f, dc, generateSchedule issue maturity f⟩
  else .error .InvalidBondError

/-- A strictly increasing (chronologically sorted) list of dates. -/
def scheduleSorted : List CalendarDate → Prop
  | [] => True
  | [_] => True
  | d1 :: d2 :: rest => dateLT d1 d2 ∧ scheduleSorted (d2 :: rest)

instance instDecidableScheduleSorted :
    (l : List CalendarDate) → Decidable (scheduleSorted l)
  | [] => .isTrue trivial
  | [_] => .isTrue trivial
  | _ :: d2 :: rest =>
      @instDecidableAnd _ _ _ (instDecidableScheduleSorted (d2 :: rest))

/-- The spec's Bond/CouponSchedule invariant: valid ordered dates, nonnegative
coupon, and a nonempty strictly-increasing schedule of valid dates inside
`(issue, maturity]` ending exactly at maturity. -/
def ValidBond (b : Bond) : Prop :=
  validDate b.issue_date ∧ validDate b.maturity_date ∧
  dateLT b.issue_date b.maturity_date ∧ 0 ≤ b.coupon_rate ∧
  b.coupon_schedule ≠ [] ∧
  b.coupon_schedule.getLast? = some b.maturity_date ∧
  scheduleSorted b.coupon_schedule ∧
  ∀ d ∈ b.coupon_schedule,
    validDate d ∧ dateLT b.issue_date d ∧ dateLE d b.maturity_date

instance (b : Bond) : Decidable (ValidBond b) :=
  inferInstanceAs (Decidable (_ ∧ _ ∧ _ ∧ _ ∧ _ ∧ _ ∧ _ ∧ _))

/-- Coupon dates strictly after the settlement date, in ascending order. -/
def remainingCoupons (b : Bond) (settle : CalendarDate) : List CalendarDate :=
  b.coupon_schedule.filter (fun d => decide (dateLT settle d))

/-- The coupon date immediately before or equal to settlement, defaulting to
the issue date when settlement precedes the first coupon. -/
def prevCoupon (b : Bond) (settle : CalendarDate) : CalendarDate :=
  ((b.coupon_schedule.filter (fun d => decide (dateLE d settle))).getLast?).getD
    b.issue_date

/-- Modelled from the spec: accrued interest as linear accrual inside the
coupon period containing settlement, scaled by the day-count ratio; zero when
no coupon date lies strictly after settlement. -/
def accruedRaw (b : Bond) (settle : CalendarDate) : ℚ :=
  match b.coupon_schedule.find? (fun d => decide (dateLT settle d)) with
  | none => 0
  | some next =>
      b.coupon_rate / (periods_per_year b.frequency : ℚ) *
        (yfRaw b.day_count_convention (prevCoupon b settle) settle /
          yfRaw b.day_count_convention (prevCoupon b settle) next)

/-- Modelled from the spec: `accrued_interest(bond, settlement)`, failing with
`SettlementOutOfRange` when settlement is before issue or after maturity. -/
def accrued_interest (b : Bond) (settle : CalendarDate) : Except Err ℚ :=
  if dateLE b.issue_date settle ∧ dateLE settle b.maturity_date then
    .ok (accruedRaw b settle)
  else .error .SettlementOutOfRange

/-- Number of coupon periods from settlement to the next coupon date (the
day-count year fraction scaled to periods); `0` when no coupon remains. -/
def firstPeriodT (b : Bond) (settle : CalendarDate) : ℚ :=
  match remainingCoupons b settle with
  | [] => 0
  | next :: _ =>
      (periods_per_year b.frequency : ℚ) * yfRaw b.day_count_convention settle next

/-- Cash amount of the `i`-th remaining coupon out of `N` (per 100 face):
the periodic coupon, plus the redemption of 100 on the final date. -/
def couponAmount (b : Bond) (N i : ℕ) : ℚ :=
  b.coupon_rate / (periods_per_year b.frequency : ℚ) * 100 +
    (if i = N - 1 then 100 else 0)

/-- Modelled from the spec: weighted present-value sum over the remaining
cashflows.  The `i`-th remaining cashflow occurs `firstPeriodT + i` periods
after settlement and is discounted by `(1 + ytm/m) ^ -(firstPeriodT + i)`;
with no remaining coupon (settlement = maturity) only the redemption of 100
at time 0 remains.  `w` is the per-cashflow weight (1 for prices, time-based
for durations and convexity). -/
noncomputable def flowSum (b : Bond) (settle : CalendarDate) (y : ℝ) (w : ℚ → ℝ) : ℝ :=
  match remainingCoupons b settle with
  | [] => w 0 * ((100 : ℚ) : ℝ) *
      (1 + y / (periods_per_year b.frequency : ℝ)) ^ (-((0 : ℚ) : ℝ))
  | _ :: rest =>
      Finset.sum (Finset.range (rest.length + 1)) (fun i =>
        w (firstPeriodT b settle + i) *
          ((couponAmount b (rest.length + 1) i : ℚ) : ℝ) *
          (1 + y / (periods_per_year b.frequency : ℝ)) ^
            (-((firstPeriodT b settle + i : ℚ) : ℝ)))

/-- Modelled from the spec: dirty price as the discounted value of the
remaining coupons plus redemption, per 100 face value. -/
noncomputable def dirty_price_from_ytm (b : Bond) (settle : CalendarDate) (y : ℝ) : ℝ :=
  flowSum b settle y (fun _ => 1)

/-- Modelled from the spec: clean price = dirty price − accrued interest. -/
noncomputable def clean_price_from_ytm (b : Bond) (settle : CalendarDate) (y : ℝ) : ℝ :=
  dirty_price_from_ytm b settle y - ((accruedRaw b settle : ℚ) : ℝ)

/-- Modelled from the spec: Macaulay duration, the present-value-weighted
average time to cashflow (in years) divided by the dirty price. -/
noncomputable def macauley_duration (b : Bond) (settle : CalendarDate) (y : ℝ) : ℝ :=
  flowSum b settle y (fun t => ((t : ℚ) : ℝ) / (periods_per_year b.frequency : ℝ)) /
    dirty_price_from_ytm b settle y

/-- Modelled from the spec: modified duration =
`macauley_duration / (1 + ytm / periods_per_year)`. -/
noncomputable def modified_duration (b : Bond) (settle : CalendarDate) (y : ℝ) : ℝ :=
  macauley_duration b settle y / (1 + y / (periods_per_year b.frequency : ℝ))

/-- Modelled from the spec: convexity,
`Σ tᵢ (tᵢ + 1/m) PVᵢ / (dirty · (1 + ytm/m)²)` with times in years. -/
noncomputable def convexity_from_ytm (b : Bond) (settle : CalendarDate) (y : ℝ) : ℝ :=
  flowSum b settle y (fun t =>
      ((t : ℚ) : ℝ) / (periods_per_year b.frequency : ℝ) *
        (((t : ℚ) : ℝ) / (periods_per_year b.frequency : ℝ) +
          1 / (periods_per_year b.frequency : ℝ))) /
    (dirty_price_from_ytm b settle y *
      (1 + y / (periods_per_year b.frequency : ℝ)) ^ (2 : ℕ))

/-- Modelled from the spec: analytic derivative of the dirty price with
respect to the yield (proportional to negative duration). -/
noncomputable def dirty_price_deriv (b : Bond) (settle : CalendarDate) (y : ℝ) : ℝ :=
  flowSum b settle y (fun t =>
    -(((t : ℚ) : ℝ) / (periods_per_year b.frequency : ℝ)) *
      (1 + y / (periods_per_year b.frequency : ℝ))⁻¹)

/-- Which stopping criterion ended the yield search: the price tolerance, or
a final yield step of the recorded size. -/
inductive StopReason where
  | priceTol
  | stepTol (step : ℝ)

/-- The next yield estimate: the Newton step from the current estimate when it
stays inside the updated bracket, otherwise the bracket midpoint. -/
noncomputable def nextEstimate (b : Bond) (settle : CalendarDate)
    (target lo hi y : ℝ) : ℝ :=
  if (if target < clean_price_from_ytm b settle y then y else lo) <
        y - (clean_price_from_ytm b settle y - target) / dirty_price_deriv b settle y ∧
      y - (clean_price_from_ytm b settle y - target) / dirty_price_deriv b settle y <
        (if target < clean_price_from_ytm b settle y then hi else y) then
    y - (clean_price_from_ytm b settle y - target) / dirty_price_deriv b settle y
  else
    ((if target < clean_price_from_ytm b settle y then y else lo) +
      (if target < clean_price_from_ytm b settle y then hi else y)) / 2

/-- Modelled from the spec: one bracketing-and-refinement yield search.
Each iteration evaluates the clean price at the current estimate, stops when
the price difference is below `1e-8`, otherwise shrinks the bracket, takes a
Newton step off the analytic derivative (falling back to bisection when the
Newton point leaves the bracket), stops when the yield step is below `1e-10`,
and recurses on the remaining fuel.  Returns the yield, the number of
iterations used, and the stopping criterion; exhausted fuel fails with
`YieldNotConverged`. -/
noncomputable def solveGo (b : Bond) (settle : CalendarDate) (target : ℝ) :
    Nat → ℝ → ℝ → ℝ → Except Err (ℝ × Nat × StopReason)
  | 0, _, _, _ => .error .YieldNotConverged
  | fuel + 1, lo, hi, y =>
      if |clean_price_from_ytm b settle y - target| < 1e-8 then
        .ok (y, 1, .priceTol)
      else
        if |nextEstimate b settle target lo hi y - y| < 1e-10 then
          .ok (nextEstimate b settle target lo hi y, 1,
            .stepTol (nextEstimate b settle target lo hi y - y))
        else
          (solveGo b settle target fuel
              (if target < clean_price_from_ytm b settle y then y else lo)
              (if target < clean_price_from_ytm b settle y then hi else y)
              (nextEstimate b settle target lo hi y)).map
            (fun r => (r.1, r.2.1 + 1, r.2.2))

/-- Modelled from the spec: the full yield-from-price search, seeded with the
bracket `[-0.5, 2.0]` and its midpoint, capped at 100 iterations, guarded by
`PriceOutOfBounds` for a non-positive clean price or one above 10× face
value. -/
noncomputable def ytm_solve_full (b : Bond) (settle : CalendarDate)
    (clean_price : ℝ) : Except Err (ℝ × Nat × StopReason) :=
  if clean_price ≤ 0 ∨ 10 * 100 < clean_price then .error .PriceOutOfBounds
  else solveGo b settle clean_price 100 (-(1 / 2)) 2 ((-(1 / 2) + 2) / 2)

/-- Modelled from the spec: `ytm_from_price` / `yield_to_maturity` — root-find
the yield whose clean price matches the given one. -/
noncomputable def yield_to_maturity (b : Bond) (settle : CalendarDate)
    (clean_price : ℝ) : Except Err ℝ :=
  (ytm_solve_full b settle clean_price).map (fun r => r.1)

/-- A request to the runner, after JSON decoding: date triples, coupon rate,
frequency and day-count enums, and the optional `ytm` / `clean_price`. -/
structure Request where
  issue_date : Int × Int × Int
  maturity_date : Int × Int × Int
  settlement_date : Int × Int × Int
  coupon_rate : ℚ
  frequency : Frequency
  day_count : DayCountConvention
  ytm : Option ℝ
  clean_price : Option ℝ

/-- The runner's response: all seven result fields. -/
structure Response where
  clean_price : ℝ
  dirty_price : ℝ
  accrued_interest : ℝ
  ytm : ℝ
  macauley_duration : ℝ
  modified_duration : ℝ
  convexity : ℝ

/-- Build a `CalendarDate` from a `[year, month, day]` triple. -/
def toDate (t : Int × Int × Int) : CalendarDate :=
  ⟨t.1, t.2.1, t.2.2⟩

/-- The dispatch of `runner.py::run`, in source order: the three dates are
parsed (validated) first, the bond is constructed, and then the branch on the
optional fields: a present `ytm` takes the price-from-yield branch (whether or
not `clean_price` is also present), an absent `ytm` with a present
`clean_price` takes the yield-from-price branch, and neither present raises
the provide-either error (`AmbiguousInput`). -/
noncomputable def run (req : Request) : Except Err Response :=
  if validDate (toDate req.issue_date) ∧ validDate (toDate req.maturity_date) ∧
      validDate (toDate req.settlement_date) then
    match mkBond (toDate req.issue_date) (toDate req.maturity_date)
        req.coupon_rate req.frequency req.day_count with
    | .error e => .error e
    | .ok bond =>
        match req.ytm with
        | some y =>
            (accrued_interest bond (toDate req.settlement_date)).map (fun a : ℚ =>
              { clean_price := clean_price_from_ytm bond (toDate req.settlement_date) y
                dirty_price := dirty_price_from_ytm bond (toDate req.settlement_date) y
                accrued_interest := (a : ℝ)
                ytm := y
                macauley_duration := macauley_duration bond (toDate req.settlement_date) y
                modified_duration := modified_duration bond (toDate req.settlement_date) y
                convexity := convexity_from_ytm bond (toDate req.settlement_date) y })
        | none =>
            match req.clean_price with
            | some cp =>
                match yield_to_maturity bond (toDate req.settlement_date) cp with
                | .error e => .error e
                | .ok y =>
                    (accrued_interest bond (toDate req.settlement_date)).map (fun a : ℚ =>
                      { clean_price := cp
                        dirty_price := dirty_price_from_ytm bond (toDate req.settlement_date) y
                        accrued_interest := (a : ℝ)
                        ytm := y
                        macauley_duration := macauley_duration bond (toDate req.settlement_date) y
                        modified_duration := modified_duration bond (toDate req.settlement_date) y
                        convexity := convexity_from_ytm bond (toDate req.settlement_date) y })
            | none => .error .AmbiguousInput
  else .error .InvalidDate

/-- A concrete one-coupon bond (issue 2020-01-01, maturity 2021-01-01, 5%
annual coupon, ACT/365F) used to instantiate witnesses and counterexamples. -/
def exampleBond : Bond :=
  ⟨⟨2020, 1, 1⟩, ⟨2021, 1, 1⟩, 1 / 20, .ANNUAL, .ACT_365F, [⟨2021, 1, 1⟩]⟩

/-- A concrete request carrying both `ytm` and `clean_price`, with settlement
at maturity. -/
noncomputable def reqBoth : Request :=
  ⟨(2020, 1, 1), (2021, 1, 1), (2021, 1, 1), 1 / 20, .ANNUAL, .ACT_365F,
    some (1 / 20), some 60⟩

/-- A second request carrying both `ytm` and `clean_price = 50`, with
settlement at maturity. -/
noncomputable def reqBothB : Request :=
  ⟨(2020, 1, 1), (2021, 1, 1), (2021, 1, 1), 1 / 20, .ANNUAL, .ACT_365F,
    some (1 / 20), some 50⟩

/-- A concrete request with neither `ytm` nor `clean_price`. -/
def reqNeither : Request :=
  ⟨(2020, 1, 1), (2021, 1, 1), (2020, 7, 1), 1 / 20, .ANNUAL, .ACT_365F,
    none, none⟩

/-- A concrete request with neither optional field and an invalid issue date
(month 13). -/
def reqNeitherBadDate : Request :=
  ⟨(2020, 13, 1), (2021, 1, 1), (2020, 7, 1), 1 / 20, .ANNUAL, .ACT_365F,
    none, none⟩

/-- A concrete request supplying only `ytm`, with settlement at maturity. -/
noncomputable def reqYtmOnly : Request :=
  ⟨(2020, 1, 1), (2021, 1, 1), (2021, 1, 1), 1 / 20, .ANNUAL, .ACT_365F,
    some (1 / 20), none⟩

/-- The bond constructed by a request whose validation succeeds. -/
def reqBond (req : Request) : Bond :=
  ⟨toDate req.issue_date, toDate req.maturity_date, req.coupon_rate,
    req.frequency, req.day_count,
    generateSchedule (toDate req.issue_date) (toDate req.maturity_date)
      req.frequency⟩

/-! ### Order and calendar lemmas -/

theorem dateLE_refl (a : CalendarDate) : dateLE a a := by
  unfold dateLE; omega

theorem dateLE_trans {a b c : CalendarDate} (h1 : dateLE a b) (h2 : dateLE b c) :
    dateLE a c := by
  unfold dateLE at *; omega

theorem dateLE_of_dateLT {a b : CalendarDate} (h : dateLT a b) : dateLE a b := by
  unfold dateLE dateLT at *; omega

theorem not_dateLT_of_dateLE {a b : CalendarDate} (h : dateLE a b) :
    ¬ dateLT b a := by
  unfold dateLE dateLT at *; omega

theorem dateLE_year_le {a b : CalendarDate} (h : dateLE a b) : a.year ≤ b.year := by
  unfold dateLE at h; omega

theorem jan1Num_mono {y z : Int} (h : y ≤ z) : jan1Num y ≤ jan1Num z := by
  simp only [jan1Num, leapsUpTo]; omega

theorem rataDie_bounds {d : CalendarDate} (h : validDate d) :
    jan1Num d.year ≤ rataDie d ∧ rataDie d < jan1Num (d.year + 1) := by
  obtain ⟨h1, h2, h3, h4⟩ := h
  simp only [daysInMonth] at h4
  simp only [rataDie, jan1Num, leapsUpTo, daysBeforeMonth]
  split_ifs at h4 ⊢ <;> unfold isLeapYear at * <;> omega

theorem clampToYear_low {y t : Int} (h : t < jan1Num y) :
    clampToYear y t = jan1Num y := by
  have h2 := jan1Num_mono (show y ≤ y + 1 by omega)
  unfold clampToYear; omega

theorem clampToYear_high {y t : Int} (h : jan1Num (y + 1) ≤ t) :
    clampToYear y t = jan1Num (y + 1) := by
  have h2 := jan1Num_mono (show y ≤ y + 1 by omega)
  unfold clampToYear; omega

theorem yfISDA_self (a : CalendarDate) : yfISDA a a = 0 := by
  unfold yfISDA
  apply Finset.sum_eq_zero
  intro y _
  simp

theorem yfISDA_additive {a b c : CalendarDate} (ha : validDate a)
    (hb : validDate b) (hc : validDate c) (hab : dateLE a b) (hbc : dateLE b c) :
    yfISDA a c = yfISDA a b + yfISDA b c := by
  have hyab : a.year ≤ b.year := dateLE_year_le hab
  have hybc : b.year ≤ c.year := dateLE_year_le hbc
  obtain ⟨hal, hau⟩ := rataDie_bounds ha
  obtain ⟨hbl, hbu⟩ := rataDie_bounds hb
  obtain ⟨hcl, hcu⟩ := rataDie_bounds hc
  have eab : Finset.sum (Finset.Icc a.year b.year) (fun y =>
        ((clampToYear y (rataDie b) - clampToYear y (rataDie a) : Int) : ℚ) /
          ((daysInYear y : Int) : ℚ)) =
      Finset.sum (Finset.Icc a.year c.year) (fun y =>
        ((clampToYear y (rataDie b) - clampToYear y (rataDie a) : Int) : ℚ) /
          ((daysInYear y : Int) : ℚ)) := by
    apply Finset.sum_subset (Finset.Icc_subset_Icc le_rfl hybc)
    intro y hy hy2
    rw [Finset.mem_Icc] at hy hy2
    have hyb : b.year < y := by omega
    have h1 : jan1Num (b.year + 1) ≤ jan1Num y := jan1Num_mono (by omega)
    have h2 : jan1Num (a.year + 1) ≤ jan1Num y := jan1Num_mono (by omega)
    rw [clampToYear_low (by omega), clampToYear_low (by omega)]
    simp
  have ebc : Finset.sum (Finset.Icc b.year c.year) (fun y =>
        ((clampToYear y (rataDie c) - clampToYear y (rataDie b) : Int) : ℚ) /
          ((daysInYear y : Int) : ℚ)) =
      Finset.sum (Finset.Icc a.year c.year) (fun y =>
        ((clampToYear y (rataDie c) - clampToYear y (rataDie b) : Int) : ℚ) /
          ((daysInYear y : Int) : ℚ)) := by
    apply Finset.sum_subset (Finset.Icc_subset_Icc hyab le_rfl)
    intro y hy hy2
    rw [Finset.mem_Icc] at hy hy2
    have hyb : y < b.year := by omega
    have h1 : jan1Num (y + 1) ≤ jan1Num b.year := jan1Num_mono (by omega)
    have h2 : jan1Num b.year ≤ jan1Num c.year := jan1Num_mono (by omega)
    rw [clampToYear_high (by omega), clampToYear_high (by omega)]
    simp
  unfold yfISDA
  rw [eab, ebc, ← Finset.sum_add_distrib]
  apply Finset.sum_congr rfl
  intro y _
  rw [div_add_div_same]
  push_cast
  ring

theorem yfRaw_self (conv : DayCountConvention) (a : CalendarDate) :
    yfRaw conv a a = 0 := by
  cases conv with
  | ACT_ACT_ISDA => exact yfISDA_self a
  | THIRTY_E_360 => simp [yfRaw]
  | ACT_360 => simp [yfRaw]
  | ACT_365F => simp [yfRaw]

theorem yfRaw_additive (conv : DayCountConvention) {a b c : CalendarDate}
    (ha : validDate a) (hb : validDate b) (hc : validDate c)
    (hab : dateLE a b) (hbc : dateLE b c) :
    yfRaw conv a c = yfRaw conv a b + yfRaw conv b c := by
  cases conv with
  | ACT_ACT_ISDA => exact yfISDA_additive ha hb hc hab hbc
  | THIRTY_E_360 => simp only [yfRaw]; push_cast; ring
  | ACT_360 => simp only [yfRaw]; push_cast; ring
  | ACT_365F => simp only [yfRaw]; push_cast; ring

/-! ### Claim C6: year-fraction additivity, zero and order guard -/

/-- C6: for every day-count convention in the fixed set and all valid dates
`a ≤ b ≤ c`, year fractions are additive — `year_fraction(conv, a, c)` equals
`year_fraction(conv, a, b) + year_fraction(conv, b, c)` exactly (hence within
any floating tolerance); `year_fraction(conv, start, start) = 0`; and
`year_fraction` fails with `InvalidDateOrder` whenever `start > end`. -/
theorem year_fraction_spec (conv : DayCountConvention) (a b c : CalendarDate)
    (ha : validDate a) (hb : validDate b) (hc : validDate c)
    (hab : dateLE a b) (hbc : dateLE b c) :
    year_fraction conv a c = .ok (yfRaw conv a b + yfRaw conv b c) ∧
    yfRaw conv a c = yfRaw conv a b + yfRaw conv b c ∧
    year_fraction conv a a = .ok 0 ∧
    ∀ s e : CalendarDate, ¬ dateLE s e →
      year_fraction conv s e = .error .InvalidDateOrder := by
  have hadd := yfRaw_additive conv ha hb hc hab hbc
  refine ⟨?_, hadd, ?_, ?_⟩
  · unfold year_fraction
    rw [if_pos (dateLE_trans hab hbc), hadd]
  · unfold year_fraction
    rw [if_pos (dateLE_refl a), yfRaw_self]
  · intro s e hse
    unfold year_fraction
    rw [if_neg hse]

/-- Witness for C6 at the leap-year-spanning dates 2019-06-15 ≤ 2020-03-01 ≤
2021-02-10 under `ACT_ACT_ISDA`. -/
theorem year_fraction_spec_witness :
    year_fraction .ACT_ACT_ISDA ⟨2019, 6, 15⟩ ⟨2021, 2, 10⟩ =
      .ok (yfRaw .ACT_ACT_ISDA ⟨2019, 6, 15⟩ ⟨2020, 3, 1⟩ +
        yfRaw .ACT_ACT_ISDA ⟨2020, 3, 1⟩ ⟨2021, 2, 10⟩) :=
  (year_fraction_spec .ACT_ACT_ISDA ⟨2019, 6, 15⟩ ⟨2020, 3, 1⟩ ⟨2021, 2, 10⟩
    (by decide) (by decide) (by decide) (by decide) (by decide)).1

/-! ### Degenerate valuation at maturity -/

theorem exampleBond_valid : ValidBond exampleBond := by
  refine ⟨by decide, by decide, by decide, by norm_num [exampleBond],
    by decide, by decide, by decide, by decide⟩

theorem schedule_dateLE_maturity {b : Bond} (hb : ValidBond b) :
    ∀ d ∈ b.coupon_schedule, dateLE d b.maturity_date := by
  intro d hd
  exact ((hb.2.2.2.2.2.2.2 d hd)).2.2

theorem remainingCoupons_maturity {b : Bond} (hb : ValidBond b) :
    remainingCoupons b b.maturity_date = [] := by
  unfold remainingCoupons
  rw [List.filter_eq_nil_iff]
  intro d hd
  simp only [decide_eq_true_eq]
  exact not_dateLT_of_dateLE (schedule_dateLE_maturity hb d hd)

theorem accruedRaw_maturity {b : Bond} (hb : ValidBond b) :
    accruedRaw b b.maturity_date = 0 := by
  unfold accruedRaw
  have hfind : b.coupon_schedule.find?
      (fun d => decide (dateLT b.maturity_date d)) = none := by
    rw [List.find?_eq_none]
    intro d hd
    simp only [decide_eq_true_eq]
    exact not_dateLT_of_dateLE (schedule_dateLE_maturity hb d hd)
  rw [hfind]

theorem flowSum_maturity {b : Bond} (hb : ValidBond b) (y : ℝ) (w : ℚ → ℝ) :
    flowSum b b.maturity_date y w = w 0 * 100 := by
  unfold flowSum
  rw [remainingCoupons_maturity hb]
  norm_num

theorem dirty_price_maturity {b : Bond} (hb : ValidBond b) (y : ℝ) :
    dirty_price_from_ytm b b.maturity_date y = 100 := by
  unfold dirty_price_from_ytm
  rw [flowSum_maturity hb]
  norm_num

theorem clean_price_maturity {b : Bond} (hb : ValidBond b) (y : ℝ) :
    clean_price_from_ytm b b.maturity_date y = 100 := by
  unfold clean_price_from_ytm
  rw [dirty_price_maturity hb, accruedRaw_maturity hb]
  norm_num

theorem accrued_interest_maturity {b : Bond} (hb : ValidBond b) :
    accrued_interest b b.maturity_date = .ok 0 := by
  unfold accrued_interest
  rw [if_pos ⟨dateLE_of_dateLT hb.2.2.1, dateLE_refl _⟩, accruedRaw_maturity hb]

theorem macauley_duration_maturity {b : Bond} (hb : ValidBond b) (y : ℝ) :
    macauley_duration b b.maturity_date y = 0 := by
  unfold macauley_duration
  rw [flowSum_maturity hb]
  norm_num

theorem modified_duration_maturity {b : Bond} (hb : ValidBond b) (y : ℝ) :
    modified_duration b b.maturity_date y = 0 := by
  unfold modified_duration
  rw [macauley_duration_maturity hb]
  norm_num

theorem convexity_maturity {b : Bond} (hb : ValidBond b) (y : ℝ) :
    convexity_from_ytm b b.maturity_date y = 0 := by
  unfold convexity_from_ytm
  rw [flowSum_maturity hb]
  norm_num

/-! ### Claim C5: valuation at maturity is degenerate -/

/-- C5: for every valid bond and every yield, valuation at
settlement = maturity is degenerate: accrued interest is 0 (and the range
check passes), and the dirty and clean prices both equal 100. -/
theorem valuation_at_maturity_degenerate (b : Bond) (y : ℝ) (hb : ValidBond b) :
    accrued_interest b b.maturity_date = .ok 0 ∧
    dirty_price_from_ytm b b.maturity_date y = 100 ∧
    clean_price_from_ytm b b.maturity_date y = 100 :=
  ⟨accrued_interest_maturity hb, dirty_price_maturity hb y,
    clean_price_maturity hb y⟩

/-- Witness for C5 on the concrete one-coupon bond with yield 7/100. -/
theorem valuation_at_maturity_degenerate_witness :
    accrued_interest exampleBond exampleBond.maturity_date = .ok 0 ∧
    dirty_price_from_ytm exampleBond exampleBond.maturity_date (7 / 100) = 100 ∧
    clean_price_from_ytm exampleBond exampleBond.maturity_date (7 / 100) = 100 :=
  valuation_at_maturity_degenerate exampleBond (7 / 100) exampleBond_valid

/-! ### Positivity and monotonicity of discounted sums -/

theorem periods_per_year_pos (f : Frequency) : 0 < periods_per_year f := by
  cases f <;> decide

theorem periods_per_year_real_pos (f : Frequency) :
    (0 : ℝ) < (periods_per_year f : ℝ) := by
  exact_mod_cast periods_per_year_pos f

theorem maturity_mem_schedule {b : Bond} (hb : ValidBond b) :
    b.maturity_date ∈ b.coupon_schedule := by
  have hlast := hb.2.2.2.2.2.1
  obtain ⟨hne, heq⟩ := List.mem_getLast?_eq_getLast
    (show b.maturity_date ∈ b.coupon_schedule.getLast? by rw [hlast]; rfl)
  rw [heq]
  exact List.getLast_mem hne

theorem remainingCoupons_ne_nil {b : Bond} {s : CalendarDate} (hb : ValidBond b)
    (hs : dateLT s b.maturity_date) : remainingCoupons b s ≠ [] := by
  unfold remainingCoupons
  intro h
  rw [List.filter_eq_nil_iff] at h
  have h2 := h b.maturity_date (maturity_mem_schedule hb)
  simp only [decide_eq_true_eq] at h2
  exact h2 hs

theorem couponAmount_nonneg {b : Bond} (hb : ValidBond b) (N i : ℕ) :
    0 ≤ couponAmount b N i := by
  unfold couponAmount
  have h1 : 0 ≤ b.coupon_rate := hb.2.2.2.1
  have h2 : (0 : ℚ) < (periods_per_year b.frequency : ℚ) := by
    exact_mod_cast periods_per_year_pos b.frequency
  have h3 : (0 : ℚ) ≤ (if i = N - 1 then (100 : ℚ) else 0) := by positivity
  positivity

theorem couponAmount_last_pos {b : Bond} (hb : ValidBond b) (N : ℕ) :
    0 < couponAmount b N (N - 1) := by
  unfold couponAmount
  have h1 : 0 ≤ b.coupon_rate := hb.2.2.2.1
  have h2 : (0 : ℚ) < (periods_per_year b.frequency : ℚ) := by
    exact_mod_cast periods_per_year_pos b.frequency
  rw [if_pos rfl]
  positivity

theorem rpow_neg_anti {b1 b2 t : ℝ} (h1 : 0 < b1) (h2 : b1 < b2) (ht : 0 < t) :
    b2 ^ (-t) < b1 ^ (-t) := by
  have h3 : b1 ^ t < b2 ^ t := Real.rpow_lt_rpow (le_of_lt h1) h2 ht
  rw [Real.rpow_neg (le_of_lt h1), Real.rpow_neg (le_of_lt (h1.trans h2))]
  exact inv_strictAnti₀ (Real.rpow_pos_of_pos h1 t) h3

theorem dirty_price_pos {b : Bond} {s : CalendarDate} {y : ℝ} (hb : ValidBond b)
    (hs : dateLT s b.maturity_date)
    (hbase : 0 < 1 + y / (periods_per_year b.frequency : ℝ)) :
    0 < dirty_price_from_ytm b s y := by
  unfold dirty_price_from_ytm flowSum
  cases hrem : remainingCoupons b s with
  | nil => exact absurd hrem (remainingCoupons_ne_nil hb hs)
  | cons next rest =>
      apply Finset.sum_pos'
      · intro i _
        have ha := couponAmount_nonneg hb (rest.length + 1) i
        have hd := Real.rpow_pos_of_pos hbase
          (-((firstPeriodT b s + (i : ℚ) : ℚ) : ℝ))
        have ha2 : (0 : ℝ) ≤ ((couponAmount b (rest.length + 1) i : ℚ) : ℝ) := by
          exact_mod_cast ha
        nlinarith
      · refine ⟨rest.length, by simp, ?_⟩
        have ha := couponAmount_last_pos hb (rest.length + 1)
        have ha2 : (0 : ℝ) < ((couponAmount b (rest.length + 1)
            ((rest.length + 1) - 1) : ℚ) : ℝ) := by exact_mod_cast ha
        simp only [Nat.add_sub_cancel] at ha2
        have hd := Real.rpow_pos_of_pos hbase
          (-((firstPeriodT b s + (rest.length : ℚ) : ℚ) : ℝ))
        nlinarith

theorem firstPeriodT_time_pos {b : Bond} {s : CalendarDate} (hf : 0 < firstPeriodT b s)
    (i : ℕ) : (0 : ℝ) < ((firstPeriodT b s + (i : ℚ) : ℚ) : ℝ) := by
  have h1 : (0 : ℝ) < ((firstPeriodT b s : ℚ) : ℝ) := by exact_mod_cast hf
  have h2 : (0 : ℝ) ≤ ((i : ℚ) : ℝ) := by positivity
  push_cast at *
  linarith

theorem dirty_price_strict_anti {b : Bond} {s : CalendarDate} {y1 y2 : ℝ}
    (hb : ValidBond b) (hs : dateLT s b.maturity_date)
    (hf : 0 < firstPeriodT b s)
    (hbase : 0 < 1 + y1 / (periods_per_year b.frequency : ℝ)) (hy : y1 < y2) :
    dirty_price_from_ytm b s y2 < dirty_price_from_ytm b s y1 := by
  have hm : (0 : ℝ) < (periods_per_year b.frequency : ℝ) :=
    periods_per_year_real_pos b.frequency
  have hbase2 : 1 + y1 / (periods_per_year b.frequency : ℝ) <
      1 + y2 / (periods_per_year b.frequency : ℝ) := by
    have h1 : y1 / (periods_per_year b.frequency : ℝ) <
        y2 / (periods_per_year b.frequency : ℝ) :=
      div_lt_div_of_pos_right hy hm
    linarith
  unfold dirty_price_from_ytm flowSum
  cases hrem : remainingCoupons b s with
  | nil => exact absurd hrem (remainingCoupons_ne_nil hb hs)
  | cons next rest =>
      apply Finset.sum_lt_sum
      · intro i _
        have ha : (0 : ℝ) ≤ ((couponAmount b (rest.length + 1) i : ℚ) : ℝ) := by
          exact_mod_cast couponAmount_nonneg hb (rest.length + 1) i
        have hanti := rpow_neg_anti hbase hbase2 (firstPeriodT_time_pos hf i)
        nlinarith [Real.rpow_pos_of_pos hbase
          (-((firstPeriodT b s + (i : ℚ) : ℚ) : ℝ))]
      · refine ⟨rest.length, by simp, ?_⟩
        have ha : (0 : ℝ) < ((couponAmount b (rest.length + 1)
            ((rest.length + 1) - 1) : ℚ) : ℝ) := by
          exact_mod_cast couponAmount_last_pos hb (rest.length + 1)
        simp only [Nat.add_sub_cancel] at ha
        have hanti := rpow_neg_anti hbase hbase2
          (firstPeriodT_time_pos hf rest.length)
        nlinarith

theorem duration_num_pos {b : Bond} {s : CalendarDate} {y : ℝ} (hb : ValidBond b)
    (hs : dateLT s b.maturity_date) (hf : 0 < firstPeriodT b s)
    (hbase : 0 < 1 + y / (periods_per_year b.frequency : ℝ)) :
    0 < flowSum b s y
      (fun t => ((t : ℚ) : ℝ) / (periods_per_year b.frequency : ℝ)) := by
  have hm : (0 : ℝ) < (periods_per_year b.frequency : ℝ) :=
    periods_per_year_real_pos b.frequency
  unfold flowSum
  cases hrem : remainingCoupons b s with
  | nil => exact absurd hrem (remainingCoupons_ne_nil hb hs)
  | cons next rest =>
      apply Finset.sum_pos'
      · intro i _
        have ha : (0 : ℝ) ≤ ((couponAmount b (rest.length + 1) i : ℚ) : ℝ) := by
          exact_mod_cast couponAmount_nonneg hb (rest.length + 1) i
        have ht := firstPeriodT_time_pos hf i
        have hd := Real.rpow_pos_of_pos hbase
          (-((firstPeriodT b s + (i : ℚ) : ℚ) : ℝ))
        have hw : 0 ≤ ((firstPeriodT b s + (i : ℚ) : ℚ) : ℝ) /
            (periods_per_year b.frequency : ℝ) := by positivity
        positivity
      · refine ⟨rest.length, by simp, ?_⟩
        have ha : (0 : ℝ) < ((couponAmount b (rest.length + 1)
            ((rest.length + 1) - 1) : ℚ) : ℝ) := by
          exact_mod_cast couponAmount_last_pos hb (rest.length + 1)
        simp only [Nat.add_sub_cancel] at ha
        have ht := firstPeriodT_time_pos hf rest.length
        have hd := Real.rpow_pos_of_pos hbase
          (-((firstPeriodT b s + (rest.length : ℚ) : ℚ) : ℝ))
        have hw : 0 < ((firstPeriodT b s + (rest.length : ℚ) : ℚ) : ℝ) /
            (periods_per_year b.frequency : ℝ) := by positivity
        positivity

/-- The example bond seen from settlement 2020-07-01: 184 days to the single
remaining coupon under ACT/365F, one period per year. -/
theorem exampleBond_firstPeriodT :
    firstPeriodT exampleBond ⟨2020, 7, 1⟩ = 184 / 365 := by
  have h1 : remainingCoupons exampleBond ⟨2020, 7, 1⟩ = [⟨2021, 1, 1⟩] := rfl
  unfold firstPeriodT
  rw [h1]
  show (periods_per_year exampleBond.frequency : ℚ) *
    yfRaw exampleBond.day_count_convention ⟨2020, 7, 1⟩ ⟨2021, 1, 1⟩ = 184 / 365
  show (periods_per_year .ANNUAL : ℚ) *
    (((rataDie ⟨2021, 1, 1⟩ - rataDie ⟨2020, 7, 1⟩ : Int) : ℚ) / 365) = 184 / 365
  rw [show (rataDie ⟨2021, 1, 1⟩ - rataDie ⟨2020, 7, 1⟩ : Int) = 184 from by decide]
  norm_num [periods_per_year]

/-! ### Claim C3: price is strictly decreasing in yield -/

/-- C3 counterexample: at settlement = maturity the price is the constant 100,
so with `y1 = 0 < y2 = 1/10` the strict decrease
`price_from_ytm(bond, settlement, y1) > price_from_ytm(bond, settlement, y2)`
fails. -/
theorem price_from_ytm_not_strict_anti_cex :
    (0 : ℝ) < 1 / 10 ∧
    ¬ (dirty_price_from_ytm exampleBond exampleBond.maturity_date (1 / 10) <
        dirty_price_from_ytm exampleBond exampleBond.maturity_date 0) := by
  constructor
  · norm_num
  · rw [dirty_price_maturity exampleBond_valid,
      dirty_price_maturity exampleBond_valid]
    norm_num

/-- C3 amended: for a valid bond, `price_from_ytm` (dirty and clean) is
strictly decreasing in the yield, provided settlement is strictly before
maturity, the settlement-to-next-coupon year fraction is positive, and the
smaller yield keeps the discount base `1 + y/m` positive. -/
theorem price_from_ytm_strict_anti (b : Bond) (s : CalendarDate) (y1 y2 : ℝ)
    (hb : ValidBond b) (hs : dateLT s b.maturity_date)
    (hf : 0 < firstPeriodT b s)
    (hbase : 0 < 1 + y1 / (periods_per_year b.frequency : ℝ)) (hy : y1 < y2) :
    dirty_price_from_ytm b s y2 < dirty_price_from_ytm b s y1 ∧
    clean_price_from_ytm b s y2 < clean_price_from_ytm b s y1 := by
  have h := dirty_price_strict_anti hb hs hf hbase hy
  refine ⟨h, ?_⟩
  unfold clean_price_from_ytm
  linarith

/-- Witness for the amended C3 on the example bond at settlement
2020-07-01 with yields 0 < 1/10. -/
theorem price_from_ytm_strict_anti_witness :
    dirty_price_from_ytm exampleBond ⟨2020, 7, 1⟩ (1 / 10) <
      dirty_price_from_ytm exampleBond ⟨2020, 7, 1⟩ 0 :=
  (price_from_ytm_strict_anti exampleBond ⟨2020, 7, 1⟩ 0 (1 / 10)
    exampleBond_valid (by decide)
    (by rw [exampleBond_firstPeriodT]; norm_num) (by norm_num) (by norm_num)).1

/-! ### Claim C7: duration positivity -/

/-- C7 counterexample: at settlement = maturity with ytm = 1/20 > 0 the
Macaulay duration is 0, not strictly positive. -/
theorem duration_not_positive_at_maturity_cex :
    (0 : ℝ) < 1 / 20 ∧
    macauley_duration exampleBond exampleBond.maturity_date (1 / 20) = 0 ∧
    ¬ (0 < macauley_duration exampleBond exampleBond.maturity_date (1 / 20)) := by
  refine ⟨by norm_num, macauley_duration_maturity exampleBond_valid _, ?_⟩
  rw [macauley_duration_maturity exampleBond_valid]
  norm_num

/-- C7 amended: for a valid bond with settlement strictly before maturity and
a positive settlement-to-next-coupon year fraction, and any `ytm > 0`:
Macaulay and modified durations are strictly positive, modified duration
equals `macauley_duration / (1 + ytm/periods_per_year)`, and consequently
modified ≤ Macaulay. -/
theorem duration_spec (b : Bond) (s : CalendarDate) (y : ℝ) (hb : ValidBond b)
    (hs : dateLT s b.maturity_date) (hf : 0 < firstPeriodT b s) (hy : 0 < y) :
    0 < macauley_duration b s y ∧
    modified_duration b s y =
      macauley_duration b s y / (1 + y / (periods_per_year b.frequency : ℝ)) ∧
    0 < modified_duration b s y ∧
    modified_duration b s y ≤ macauley_duration b s y := by
  have hm : (0 : ℝ) < (periods_per_year b.frequency : ℝ) :=
    periods_per_year_real_pos b.frequency
  have hym : 0 < y / (periods_per_year b.frequency : ℝ) := div_pos hy hm
  have hbase : 0 < 1 + y / (periods_per_year b.frequency : ℝ) := by linarith
  have hmac : 0 < macauley_duration b s y := by
    unfold macauley_duration
    exact div_pos (duration_num_pos hb hs hf hbase) (dirty_price_pos hb hs hbase)
  refine ⟨hmac, rfl, ?_, ?_⟩
  · unfold modified_duration
    exact div_pos hmac hbase
  · unfold modified_duration
    exact div_le_self (le_of_lt hmac) (by linarith)

/-- Witness for the amended C7 on the example bond at settlement 2020-07-01
with ytm = 1/10. -/
theorem duration_spec_witness :
    0 < macauley_duration exampleBond ⟨2020, 7, 1⟩ (1 / 10) ∧
    modified_duration exampleBond ⟨2020, 7, 1⟩ (1 / 10) ≤
      macauley_duration exampleBond ⟨2020, 7, 1⟩ (1 / 10) := by
  have h := duration_spec exampleBond ⟨2020, 7, 1⟩ (1 / 10) exampleBond_valid
    (by decide) (by rw [exampleBond_firstPeriodT]; norm_num) (by norm_num)
  exact ⟨h.1, h.2.2.2⟩

/-! ### The yield solver: iteration bound, tolerances, error kinds -/

theorem solveGo_price_stop {b : Bond} {s : CalendarDate} {target : ℝ}
    {fuel : ℕ} {lo hi y : ℝ}
    (h : |clean_price_from_ytm b s y - target| < 1e-8) :
    solveGo b s target (fuel + 1) lo hi y = .ok (y, 1, .priceTol) := by
  unfold solveGo
  rw [if_pos h]

theorem solveGo_ok {b : Bond} {s : CalendarDate} {target : ℝ} :
    ∀ (fuel : ℕ) (lo hi y v : ℝ) (k : ℕ) (r : StopReason),
      solveGo b s target fuel lo hi y = .ok (v, k, r) →
      k ≤ fuel ∧
      ((r = .priceTol ∧ |clean_price_from_ytm b s v - target| < 1e-8) ∨
        (∃ st, r = .stepTol st ∧ |st| < 1e-10)) := by
  intro fuel
  induction fuel with
  | zero =>
      intro lo hi y v k r h
      exact Except.noConfusion h
  | succ n ih =>
      intro lo hi y v k r h
      unfold solveGo at h
      by_cases h1 : |clean_price_from_ytm b s y - target| < 1e-8
      · rw [if_pos h1] at h
        simp only [Except.ok.injEq, Prod.mk.injEq] at h
        obtain ⟨hv, hk, hr⟩ := h
        subst hv
        subst hk
        subst hr
        exact ⟨by omega, Or.inl ⟨rfl, h1⟩⟩
      · rw [if_neg h1] at h
        by_cases h2 : |nextEstimate b s target lo hi y - y| < 1e-10
        · rw [if_pos h2] at h
          simp only [Except.ok.injEq, Prod.mk.injEq] at h
          obtain ⟨hv, hk, hr⟩ := h
          subst hv
          subst hk
          subst hr
          exact ⟨by omega, Or.inr ⟨_, rfl, h2⟩⟩
        · rw [if_neg h2] at h
          cases hgo : solveGo b s target n
              (if target < clean_price_from_ytm b s y then y else lo)
              (if target < clean_price_from_ytm b s y then hi else y)
              (nextEstimate b s target lo hi y) with
          | error e =>
              rw [hgo] at h
              exact Except.noConfusion h
          | ok p =>
              obtain ⟨v2, k2, r2⟩ := p
              rw [hgo] at h
              simp only [Except.map, Except.ok.injEq, Prod.mk.injEq] at h
              obtain ⟨hv, hk, hr⟩ := h
              subst hv
              subst hr
              have h3 := ih _ _ _ _ _ _ hgo
              exact ⟨by omega, h3.2⟩

theorem solveGo_error {b : Bond} {s : CalendarDate} {target : ℝ} :
    ∀ (fuel : ℕ) (lo hi y : ℝ) (e : Err),
      solveGo b s target fuel lo hi y = .error e → e = .YieldNotConverged := by
  intro fuel
  induction fuel with
  | zero =>
      intro lo hi y e h
      simp only [solveGo, Except.error.injEq] at h
      exact h.symm
  | succ n ih =>
      intro lo hi y e h
      unfold solveGo at h
      by_cases h1 : |clean_price_from_ytm b s y - target| < 1e-8
      · rw [if_pos h1] at h
        exact Except.noConfusion h
      · rw [if_neg h1] at h
        by_cases h2 : |nextEstimate b s target lo hi y - y| < 1e-10
        · rw [if_pos h2] at h
          exact Except.noConfusion h
        · rw [if_neg h2] at h
          cases hgo : solveGo b s target n
              (if target < clean_price_from_ytm b s y then y else lo)
              (if target < clean_price_from_ytm b s y then hi else y)
              (nextEstimate b s target lo hi y) with
          | error e2 =>
              rw [hgo] at h
              simp only [Except.map, Except.error.injEq] at h
              subst h
              exact ih _ _ _ _ hgo
          | ok p =>
              rw [hgo] at h
              exact Except.noConfusion h

/-! ### Claim C4: the solver never returns a non-converged estimate -/

/-- C4: `ytm_from_price` fails with `PriceOutOfBounds` before iterating
whenever the clean price is ≤ 0 or above 10× face value; a successful solve
uses at most 100 iterations and its result satisfies a stopping tolerance
(price difference < 1e-8, or final yield step < 1e-10); and the only possible
failures are `PriceOutOfBounds` and `YieldNotConverged`, so a non-converged
estimate is never returned. -/
theorem yield_solver_guarded (b : Bond) (s : CalendarDate) (cp : ℝ) :
    ((cp ≤ 0 ∨ 10 * 100 < cp) →
      yield_to_maturity b s cp = .error .PriceOutOfBounds) ∧
    (∀ (v : ℝ) (k : ℕ) (r : StopReason),
      ytm_solve_full b s cp = .ok (v, k, r) →
      k ≤ 100 ∧
      ((r = .priceTol ∧ |clean_price_from_ytm b s v - cp| < 1e-8) ∨
        (∃ st, r = .stepTol st ∧ |st| < 1e-10))) ∧
    (∀ e : Err, yield_to_maturity b s cp = .error e →
      e = .PriceOutOfBounds ∨ e = .YieldNotConverged) := by
  refine ⟨?_, ?_, ?_⟩
  · intro h
    unfold yield_to_maturity ytm_solve_full
    rw [if_pos h]
    rfl
  · intro v k r h
    unfold ytm_solve_full at h
    split_ifs at h with hg
    exact solveGo_ok 100 (-(1 / 2)) 2 ((-(1 / 2) + 2) / 2) v k r h
  · intro e h
    unfold yield_to_maturity ytm_solve_full at h
    split_ifs at h with hg
    · simp only [Except.map, Except.error.injEq] at h
      exact Or.inl h.symm
    · cases hgo : solveGo b s cp 100 (-(1 / 2)) 2 ((-(1 / 2) + 2) / 2) with
      | error e2 =>
          rw [hgo] at h
          simp only [Except.map, Except.error.injEq] at h
          subst h
          exact Or.inr (solveGo_error 100 _ _ _ _ hgo)
      | ok p => rw [hgo] at h; simp [Except.map] at h

/-- Witness for C4: a negative clean price is rejected with
`PriceOutOfBounds`. -/
theorem yield_solver_guarded_witness :
    yield_to_maturity exampleBond exampleBond.maturity_date (-1) =
      .error .PriceOutOfBounds :=
  (yield_solver_guarded exampleBond exampleBond.maturity_date (-1)).1
    (Or.inl (by norm_num))

/-! ### Claim C2: the price→yield→price round trip -/

/-- At settlement = maturity the clean price is the constant 100, so the
solver's very first probe (the bracket midpoint 3/4) already meets the price
tolerance and is returned after one iteration. -/
theorem ytm_solve_at_maturity_eq :
    ytm_solve_full exampleBond exampleBond.maturity_date 100 =
      .ok (3 / 4, 1, .priceTol) := by
  unfold ytm_solve_full
  rw [if_neg (by norm_num)]
  rw [show (100 : ℕ) = 99 + 1 from rfl]
  rw [solveGo_price_stop
    (by rw [clean_price_maturity exampleBond_valid]; norm_num)]
  norm_num

/-- C2 counterexample: for the example bond at settlement = maturity and yield
`y = 3/10` (inside the claimed range −0.1..0.5), the round trip
`ytm_from_price(bond, settlement, price_from_ytm(bond, settlement, y) −
accrued)` returns 3/4, which differs from `y` by 0.45 — far more than 1e-6. -/
theorem ytm_roundtrip_misses_cex :
    yield_to_maturity exampleBond exampleBond.maturity_date
      (clean_price_from_ytm exampleBond exampleBond.maturity_date (3 / 10)) =
      .ok (3 / 4) ∧
    ¬ (|(3 / 4 : ℝ) - 3 / 10| ≤ 1e-6) := by
  constructor
  · unfold yield_to_maturity
    rw [clean_price_maturity exampleBond_valid, ytm_solve_at_maturity_eq]
    rfl
  · rw [show (3 / 4 : ℝ) - 3 / 10 = 9 / 20 by norm_num,
      abs_of_pos (by norm_num : (0 : ℝ) < 9 / 20)]
    norm_num

/-- C2 amended: the round trip recovers the price rather than the yield — for
every bond, settlement and yield `y`, when the solve on
`price_from_ytm(bond, settlement, y) − accrued` succeeds, the returned yield
reprices the bond to within the 1e-8 price tolerance, or was produced by a
final step smaller than 1e-10; recovery of `y` itself within 1e-6 fails in the
degenerate settlement = maturity case. -/
theorem ytm_solve_reprices (b : Bond) (s : CalendarDate) (y v : ℝ) (k : ℕ)
    (r : StopReason)
    (h : ytm_solve_full b s (clean_price_from_ytm b s y) = .ok (v, k, r)) :
    |clean_price_from_ytm b s v - clean_price_from_ytm b s y| < 1e-8 ∨
    (∃ st, r = .stepTol st ∧ |st| < 1e-10) := by
  unfold ytm_solve_full at h
  split_ifs at h with hg
  have h2 := (solveGo_ok 100 (-(1 / 2)) 2 ((-(1 / 2) + 2) / 2) v k r h).2
  rcases h2 with ⟨_, hp⟩ | hstep
  · exact Or.inl hp
  · exact Or.inr hstep

/-- Witness for the amended C2 at the example bond, settlement = maturity,
`y = 3/10`: the solve succeeds at 3/4 and reprices exactly. -/
theorem ytm_solve_reprices_witness :
    |clean_price_from_ytm exampleBond exampleBond.maturity_date (3 / 4) -
        clean_price_from_ytm exampleBond exampleBond.maturity_date (3 / 10)| <
      1e-8 ∨
    (∃ st, (StopReason.priceTol : StopReason) = .stepTol st ∧ |st| < 1e-10) :=
  ytm_solve_reprices exampleBond exampleBond.maturity_date (3 / 10) (3 / 4) 1
    .priceTol
    (by rw [clean_price_maturity exampleBond_valid]
        exact ytm_solve_at_maturity_eq)

/-! ### Evaluating `run` on concrete requests -/

theorem mkBond_example :
    mkBond (toDate (2020, 1, 1)) (toDate (2021, 1, 1)) (1 / 20) .ANNUAL
      .ACT_365F = .ok exampleBond := by
  unfold mkBond
  rw [if_pos ⟨by decide, by norm_num⟩]
  rfl

theorem run_settle_maturity_eval (req : Request)
    (h1 : req.issue_date = (2020, 1, 1)) (h2 : req.maturity_date = (2021, 1, 1))
    (h3 : req.settlement_date = (2021, 1, 1)) (h4 : req.coupon_rate = 1 / 20)
    (h5 : req.frequency = .ANNUAL) (h6 : req.day_count = .ACT_365F)
    (hy : req.ytm = some (1 / 20)) :
    run req = .ok ⟨100, 100, 0, 1 / 20, 0, 0, 0⟩ := by
  have ha : accrued_interest exampleBond (toDate (2021, 1, 1)) = .ok 0 :=
    accrued_interest_maturity exampleBond_valid
  have hcl : clean_price_from_ytm exampleBond (toDate (2021, 1, 1)) (1 / 20) = 100 :=
    clean_price_maturity exampleBond_valid _
  have hdi : dirty_price_from_ytm exampleBond (toDate (2021, 1, 1)) (1 / 20) = 100 :=
    dirty_price_maturity exampleBond_valid _
  have hmac : macauley_duration exampleBond (toDate (2021, 1, 1)) (1 / 20) = 0 :=
    macauley_duration_maturity exampleBond_valid _
  have hmod : modified_duration exampleBond (toDate (2021, 1, 1)) (1 / 20) = 0 :=
    modified_duration_maturity exampleBond_valid _
  have hconv : convexity_from_ytm exampleBond (toDate (2021, 1, 1)) (1 / 20) = 0 :=
    convexity_maturity exampleBond_valid _
  unfold run
  simp only [h1, h2, h3, h4, h5, h6, hy]
  rw [if_pos (by decide), mkBond_example]
  show Except.map _ (accrued_interest exampleBond (toDate (2021, 1, 1))) = _
  rw [ha]
  simp only [Except.map, Except.ok.injEq, hcl, hdi, hmac, hmod, hconv,
    Response.mk.injEq]
  norm_num

/-! ### Claim C1: rejection of ambiguous requests -/

/-- C1 counterexample: `reqBoth` carries both `ytm` and `clean_price`, yet
`run` does not reject it — it produces a full valuation result. -/
theorem run_both_present_not_rejected_cex :
    run reqBoth = .ok ⟨100, 100, 0, 1 / 20, 0, 0, 0⟩ :=
  run_settle_maturity_eval reqBoth rfl rfl rfl rfl rfl rfl rfl

/-- C1 amended: only the neither-present case is rejected, and the rejection
(`AmbiguousInput`, the provide-either error) happens after date parsing and
bond construction succeed; a request with both fields present is not
rejected. -/
theorem run_neither_present_rejected (req : Request)
    (hy : req.ytm = none) (hcp : req.clean_price = none)
    (hv : validDate (toDate req.issue_date) ∧ validDate (toDate req.maturity_date) ∧
      validDate (toDate req.settlement_date))
    (hbd : dateLT (toDate req.issue_date) (toDate req.maturity_date) ∧
      0 ≤ req.coupon_rate) :
    run req = .error .AmbiguousInput := by
  unfold run
  rw [if_pos hv]
  unfold mkBond
  rw [if_pos hbd, hy, hcp]

/-- Witness for the amended C1 on the concrete neither-present request. -/
theorem run_neither_present_rejected_witness :
    run reqNeither = .error .AmbiguousInput :=
  run_neither_present_rejected reqNeither rfl rfl
    ⟨by decide, by decide, by decide⟩ ⟨by decide, by norm_num [reqNeither]⟩

/-! ### Claim C10: the both-present request takes the yield branch -/

/-- C10: a request with both `ytm` and `clean_price` present takes the yield
branch — no error is raised (under well-formed dates, bond fields and
settlement range), the supplied `ytm` is echoed, the supplied `clean_price` is
ignored and the response's `clean_price` is computed from the supplied yield;
and the neither-present error is raised only after date parsing: with an
invalid issue date the result is the date error `InvalidDate`, not
`AmbiguousInput`. -/
theorem run_both_present_yield_branch (req : Request) (y cp : ℝ)
    (hy : req.ytm = some y) (_hcp : req.clean_price = some cp)
    (hv : validDate (toDate req.issue_date) ∧ validDate (toDate req.maturity_date) ∧
      validDate (toDate req.settlement_date))
    (hbd : dateLT (toDate req.issue_date) (toDate req.maturity_date) ∧
      0 ≤ req.coupon_rate)
    (hs : dateLE (toDate req.issue_date) (toDate req.settlement_date) ∧
      dateLE (toDate req.settlement_date) (toDate req.maturity_date)) :
    run req = .ok
      { clean_price := clean_price_from_ytm (reqBond req) (toDate req.settlement_date) y
        dirty_price := dirty_price_from_ytm (reqBond req) (toDate req.settlement_date) y
        accrued_interest := ((accruedRaw (reqBond req) (toDate req.settlement_date) : ℚ) : ℝ)
        ytm := y
        macauley_duration := macauley_duration (reqBond req) (toDate req.settlement_date) y
        modified_duration := modified_duration (reqBond req) (toDate req.settlement_date) y
        convexity := convexity_from_ytm (reqBond req) (toDate req.settlement_date) y } ∧
    ∀ req2 : Request, req2.ytm = none → req2.clean_price = none →
      ¬ validDate (toDate req2.issue_date) →
      run req2 = .error .InvalidDate := by
  constructor
  · unfold run
    rw [if_pos hv]
    unfold mkBond
    rw [if_pos hbd, hy]
    show Except.map _ (accrued_interest (reqBond req) (toDate req.settlement_date)) = _
    unfold accrued_interest
    rw [if_pos (show dateLE (reqBond req).issue_date (toDate req.settlement_date) ∧
      dateLE (toDate req.settlement_date) (reqBond req).maturity_date from hs)]
    rfl
  · intro req2 h1 h2 h3
    unfold run
    rw [if_neg (fun hcontra => h3 hcontra.1)]

/-- Witness for C10 on `reqBoth` (ytm 1/20 and clean_price 60 both present). -/
theorem run_both_present_yield_branch_witness :
    run reqBoth = .ok
      { clean_price := clean_price_from_ytm (reqBond reqBoth) (toDate reqBoth.settlement_date) (1 / 20)
        dirty_price := dirty_price_from_ytm (reqBond reqBoth) (toDate reqBoth.settlement_date) (1 / 20)
        accrued_interest := ((accruedRaw (reqBond reqBoth) (toDate reqBoth.settlement_date) : ℚ) : ℝ)
        ytm := 1 / 20
        macauley_duration := macauley_duration (reqBond reqBoth) (toDate reqBoth.settlement_date) (1 / 20)
        modified_duration := modified_duration (reqBond reqBoth) (toDate reqBoth.settlement_date) (1 / 20)
        convexity := convexity_from_ytm (reqBond reqBoth) (toDate reqBoth.settlement_date) (1 / 20) } :=
  (run_both_present_yield_branch reqBoth (1 / 20) 60 rfl rfl
    ⟨by decide, by decide, by decide⟩ ⟨by decide, by norm_num [reqBoth]⟩
    ⟨by decide, by decide⟩).1

/-! ### Claim C8: response fields and echoing -/

theorem mkBond_ok (req : Request)
    (hbd : dateLT (toDate req.issue_date) (toDate req.maturity_date) ∧
      0 ≤ req.coupon_rate) :
    mkBond (toDate req.issue_date) (toDate req.maturity_date) req.coupon_rate
      req.frequency req.day_count = .ok (reqBond req) := by
  unfold mkBond reqBond
  rw [if_pos hbd]

theorem mkBond_invalid (req : Request)
    (hbd : ¬ (dateLT (toDate req.issue_date) (toDate req.maturity_date) ∧
      0 ≤ req.coupon_rate)) :
    mkBond (toDate req.issue_date) (toDate req.maturity_date) req.coupon_rate
      req.frequency req.day_count = .error .InvalidBondError := by
  unfold mkBond
  rw [if_neg hbd]

/-- C8 counterexample: `reqBothB` supplies `clean_price = 50` (and
`ytm = 1/20`); the successful response carries `clean_price = 100 ≠ 50`
(computed from the yield, not echoed) and its `ytm` is the echoed input, not a
solved yield. -/
theorem response_clean_not_echoed_cex :
    run reqBothB = .ok ⟨100, 100, 0, 1 / 20, 0, 0, 0⟩ ∧ (50 : ℝ) ≠ 100 :=
  ⟨run_settle_maturity_eval reqBothB rfl rfl rfl rfl rfl rfl rfl, by norm_num⟩

/-- C8 amended: every successful `run` yields a response with all seven fields
(enforced by the `Response` type); when the request supplied `ytm` the
response's `ytm` is exactly the supplied value, and when it supplied
`clean_price` *without* `ytm` the response's `clean_price` is exactly the
supplied value and its `ytm` is the solved yield. -/
theorem response_fields_spec (req : Request) (r : Response)
    (h : run req = .ok r) :
    (∀ y, req.ytm = some y → r.ytm = y) ∧
    (req.ytm = none → ∀ cp, req.clean_price = some cp →
      r.clean_price = cp ∧
      yield_to_maturity (reqBond req) (toDate req.settlement_date) cp =
        .ok r.ytm) := by
  by_cases hv : validDate (toDate req.issue_date) ∧
      validDate (toDate req.maturity_date) ∧
      validDate (toDate req.settlement_date)
  · by_cases hbd : dateLT (toDate req.issue_date) (toDate req.maturity_date) ∧
        0 ≤ req.coupon_rate
    · cases hy : req.ytm with
      | some y0 =>
          have hrun : run req =
              (accrued_interest (reqBond req) (toDate req.settlement_date)).map
                (fun a : ℚ =>
                  ⟨clean_price_from_ytm (reqBond req) (toDate req.settlement_date) y0,
                    dirty_price_from_ytm (reqBond req) (toDate req.settlement_date) y0,
                    ((a : ℚ) : ℝ), y0,
                    macauley_duration (reqBond req) (toDate req.settlement_date) y0,
                    modified_duration (reqBond req) (toDate req.settlement_date) y0,
                    convexity_from_ytm (reqBond req) (toDate req.settlement_date) y0⟩) := by
            unfold run
            rw [if_pos hv, mkBond_ok req hbd, hy]
          rw [hrun] at h
          cases hacc : accrued_interest (reqBond req) (toDate req.settlement_date) with
          | error e => rw [hacc] at h; exact Except.noConfusion h
          | ok a =>
              rw [hacc] at h
              simp only [Except.map, Except.ok.injEq] at h
              subst h
              refine ⟨?_, ?_⟩
              · intro y1 hy1
                cases hy1
                rfl
              · intro hnone
                exact Option.noConfusion hnone
      | none =>
          cases hcp : req.clean_price with
          | none =>
              have hrun : run req = .error .AmbiguousInput := by
                unfold run
                rw [if_pos hv, mkBond_ok req hbd, hy, hcp]
              rw [hrun] at h
              exact Except.noConfusion h
          | some cp =>
              have hrun0 : run req =
                  (match yield_to_maturity (reqBond req)
                      (toDate req.settlement_date) cp with
                    | .error e2 => .error e2
                    | .ok y2 =>
                        (accrued_interest (reqBond req)
                            (toDate req.settlement_date)).map
                          (fun a : ℚ =>
                            ⟨cp,
                              dirty_price_from_ytm (reqBond req)
                                (toDate req.settlement_date) y2,
                              ((a : ℚ) : ℝ), y2,
                              macauley_duration (reqBond req)
                                (toDate req.settlement_date) y2,
                              modified_duration (reqBond req)
                                (toDate req.settlement_date) y2,
                              convexity_from_ytm (reqBond req)
                                (toDate req.settlement_date) y2⟩)) := by
                unfold run
                rw [if_pos hv, mkBond_ok req hbd, hy, hcp]
              cases hytm : yield_to_maturity (reqBond req)
                  (toDate req.settlement_date) cp with
              | error e =>
                  rw [hytm] at hrun0
                  have hrun : run req = .error e := hrun0
                  rw [hrun] at h
                  exact Except.noConfusion h
              | ok yv =>
                  rw [hytm] at hrun0
                  have hrun : run req =
                      (accrued_interest (reqBond req)
                          (toDate req.settlement_date)).map
                        (fun a : ℚ =>
                          ⟨cp,
                            dirty_price_from_ytm (reqBond req)
                              (toDate req.settlement_date) yv,
                            ((a : ℚ) : ℝ), yv,
                            macauley_duration (reqBond req)
                              (toDate req.settlement_date) yv,
                            modified_duration (reqBond req)
                              (toDate req.settlement_date) yv,
                            convexity_from_ytm (reqBond req)
                              (toDate req.settlement_date) yv⟩) := hrun0
                  rw [hrun] at h
                  cases hacc : accrued_interest (reqBond req)
                      (toDate req.settlement_date) with
                  | error e => rw [hacc] at h; exact Except.noConfusion h
                  | ok a =>
                      rw [hacc] at h
                      simp only [Except.map, Except.ok.injEq] at h
                      subst h
                      refine ⟨?_, ?_⟩
                      · intro y1 hy1
                        exact Option.noConfusion hy1
                      · intro _ cp2 hcp2
                        cases hcp2
                        exact ⟨rfl, hytm⟩
    · have hrun : run req = .error .InvalidBondError := by
        unfold run
        rw [if_pos hv, mkBond_invalid req hbd]
      rw [hrun] at h
      exact Except.noConfusion h
  · have hrun : run req = .error .InvalidDate := by
      unfold run
      rw [if_neg hv]
    rw [hrun] at h
    exact Except.noConfusion h

/-- Witness for the amended C8: the ytm-only request's response echoes the
supplied yield 1/20. -/
theorem response_fields_spec_witness :
    ((⟨100, 100, 0, 1 / 20, 0, 0, 0⟩ : Response)).ytm = 1 / 20 :=
  (response_fields_spec reqYtmOnly ⟨100, 100, 0, 1 / 20, 0, 0, 0⟩
    (run_settle_maturity_eval reqYtmOnly rfl rfl rfl rfl rfl rfl rfl)).1
    (1 / 20) rfl

/-! ### Claim C9: determinism and idempotence -/

/-- C9: every operation of the embedding is a pure function — two runs on
equal requests give equal results, and repeating any engine call on the same
immutable inputs gives the same value (there is no mutable state in the
model, so idempotence over immutable inputs is definitional). -/
theorem engine_deterministic (req1 req2 : Request) (b : Bond)
    (s : CalendarDate) (y cp : ℝ) (h : req1 = req2) :
    run req1 = run req2 ∧
    accrued_interest b s = accrued_interest b s ∧
    dirty_price_from_ytm b s y = dirty_price_from_ytm b s y ∧
    clean_price_from_ytm b s y = clean_price_from_ytm b s y ∧
    yield_to_maturity b s cp = yield_to_maturity b s cp ∧
    macauley_duration b s y = macauley_duration b s y ∧
    modified_duration b s y = modified_duration b s y ∧
    convexity_from_ytm b s y = convexity_from_ytm b s y := by
  subst h
  exact ⟨rfl, rfl, rfl, rfl, rfl, rfl, rfl, rfl⟩

/-- Witness for C9 at concrete inputs. -/
theorem engine_deterministic_witness :
    run reqNeither = run reqNeither :=
  (engine_deterministic reqNeither reqNeither exampleBond
    exampleBond.maturity_date (1 / 20) 100 rfl).1

end FinancePy
